import Mathlib

/-!
# macpathfinder: MAC-to-port discovery

A shallow embedding of `main.go`: the SNMP correlator (`getMACPortData`), the
directory client (`getZabbixHosts`, `resolveZabbixMacro`, `GetVendor`), the
inventory store (`updateSQLite`) and the host loop of `main`.

Go strings are byte sequences; they are embedded as `String`, one character per
byte. Go maps are association lists read with `List.lookup`; a write conses in
front, so the most recent write for a key is the one found.
-/

set_option autoImplicit false

namespace MacPathFinder

/-! ## Go library functions used by the program -/

/-- A Go `map[string]T`: writes cons in front, reads take the first match. -/
abbrev GoMap (α : Type) := List (String × α)

/-- Go `m[k]` on a `map[string]string`: the zero value `""` for a missing key. -/
def goGet (m : GoMap String) (k : String) : String :=
  match m.lookup k with
  | some v => v
  | none => ""

/-- Splitting a character list at every occurrence of `sep`. -/
def splitChars (sep : Char) : List Char → List (List Char)
  | [] => [[]]
  | c :: cs =>
    if c = sep then [] :: splitChars sep cs
    else
      match splitChars sep cs with
      | [] => [[c]]
      | p :: ps => (c :: p) :: ps

/-- Go `strings.Split(s, ".")`. -/
def stringsSplitDot (s : String) : List String :=
  (splitChars '.' s.data).map String.mk

/-- Go `strings.Trim(s, "\"")`: drops every leading and trailing double quote. -/
def stringsTrimQuote (s : String) : String :=
  String.mk (((s.data.dropWhile (· = '"')).reverse.dropWhile (· = '"')).reverse)

/-- Go `strings.Join(parts, sep)`. -/
def stringsJoin (parts : List String) (sep : String) : String :=
  sep.intercalate parts

/-- Go `strings.HasPrefix`. -/
def stringsHasPrefix (s pre : String) : Bool :=
  pre.data.isPrefixOf s.data

/-- Go `strings.HasSuffix`. -/
def stringsHasSuffix (s suf : String) : Bool :=
  suf.data.isSuffixOf s.data

/-- Decimal rendering of a Go `int` (`%d`, and `%v` on an `int`). -/
def fmtD : Int → String
  | Int.ofNat n => Nat.repr n
  | Int.negSucc n => "-" ++ Nat.repr (n + 1)

/-- One uppercase hexadecimal digit. -/
def hexDigitUpper (d : Nat) : Char :=
  if d < 10 then Char.ofNat (48 + d) else Char.ofNat (55 + d)

/-- Uppercase hexadecimal digits of `n`, most significant first (`fuel` bounds the
number of digits). -/
def hexUpperAux : Nat → Nat → List Char → List Char
  | 0, _, acc => acc
  | fuel + 1, n, acc =>
    if n < 16 then hexDigitUpper n :: acc
    else hexUpperAux fuel (n / 16) (hexDigitUpper (n % 16) :: acc)

/-- Uppercase hexadecimal digits of a natural number. -/
def hexUpper (n : Nat) : List Char :=
  hexUpperAux (n + 1) n []

/-- Left padding with `'0'` up to `width` characters. -/
def zeroPad (width : Nat) (ds : List Char) : List Char :=
  List.replicate (width - ds.length) '0' ++ ds

/-- Go `fmt.Sprintf("%02X", v)` on an `int`: zero padding to width 2, where the
sign of a negative value takes one of the two columns. -/
def fmtX02 : Int → String
  | Int.ofNat n => String.mk (zeroPad 2 (hexUpper n))
  | Int.negSucc n => String.mk ('-' :: zeroPad 1 (hexUpper (n + 1)))

/-- The white space of `fmt` scanning other than the newline, as byte sequences
(UTF-8): U+0009, U+000B..U+000D, U+0020, U+0085, U+00A0, U+1680, U+2000..U+200A,
U+2028, U+2029, U+202F, U+205F, U+3000. -/
def scanSpaces : List (List Nat) :=
  [[9], [11], [12], [13], [32], [194, 133], [194, 160], [225, 154, 128],
   [226, 128, 128], [226, 128, 129], [226, 128, 130], [226, 128, 131],
   [226, 128, 132], [226, 128, 133], [226, 128, 134], [226, 128, 135],
   [226, 128, 136], [226, 128, 137], [226, 128, 138], [226, 128, 168],
   [226, 128, 169], [226, 128, 175], [226, 129, 159], [227, 128, 128]]

/-- The input after one white-space rune, if it starts with one. -/
def dropSpaceRune (cs : List Char) : Option (List Char) :=
  (scanSpaces.find? (fun sp => (sp.map Char.ofNat).isPrefixOf cs)).map
    (fun sp => cs.drop sp.length)

/-- The `SkipSpace` of `fmt` scanning for `Sscanf`: white space is skipped, a
newline met while skipping is an error (`none`). -/
def skipSpace : Nat → List Char → Option (List Char)
  | 0, cs => some cs
  | fuel + 1, cs =>
    match cs with
    | [] => some []
    | c :: rest =>
      if c = '\n' then none
      else
        match dropSpaceRune (c :: rest) with
        | some cs' => skipSpace fuel cs'
        | none => some (c :: rest)

/-- Value of a run of decimal digits, `none` if a character is not a digit
(`strconv.ParseInt` in base 10 rejects the underscore). -/
def parseDigits : List Char → Nat → Option Nat
  | [], acc => some acc
  | c :: cs, acc =>
    if c.isDigit then parseDigits cs (10 * acc + (c.toNat - 48)) else none

/-- Go `fmt.Sscanf(part, "%d", &decimalValue)` with `decimalValue` preset to 0:
white space is skipped, an optional sign and the longest run of digits and
underscores are read and parsed as a 64-bit integer; on any scan error the
variable keeps 0. Input after the number is not looked at. -/
def sscanfD (part : String) : Int :=
  match skipSpace part.data.length part.data with
  | none => 0
  | some cs =>
    let (neg, body) :=
      match cs with
      | '-' :: r => (true, r)
      | '+' :: r => (false, r)
      | r => (false, r)
    let tok := body.takeWhile (fun c => c.isDigit || c = '_')
    match tok with
    | [] => 0
    | _ =>
      match parseDigits tok 0 with
      | none => 0
      | some n =>
        if neg then (if n ≤ 2 ^ 63 then -(n : Int) else 0)
        else (if n < 2 ^ 63 then (n : Int) else 0)

/-! ## SNMP data and the vendor OID registry -/

/-- The dynamic value of an `SnmpPDU`, by the Go types the program tells apart:
`string`, `[]uint8` and `int`; a value of any other dynamic type (`uint`, `nil`,
a float) is used by the program only through its `%v` rendering, which it
carries. -/
inductive SnmpValue where
  | str (s : String)
  | bytes (b : List Nat)
  | int (i : Int)
  | other (rendered : String)
  deriving DecidableEq, Repr

/-- One walk result: `gosnmp.SnmpPDU` with its `Name` and `Value`. -/
structure SnmpPDU where
  Name : String
  Value : SnmpValue
  deriving DecidableEq, Repr

/-- Go `string(v)` on a `[]uint8`. -/
def bytesToString (b : List Nat) : String :=
  String.mk (b.map (fun x => Char.ofNat (x % 256)))

/-- Go `fmt.Sprintf("%v", v)` on a PDU value; a byte slice prints as `[1 2 3]`. -/
def fmtV : SnmpValue → String
  | SnmpValue.str s => s
  | SnmpValue.bytes b => "[" ++ " ".intercalate (b.map (fun x => Nat.repr (x % 256))) ++ "]"
  | SnmpValue.int i => fmtD i
  | SnmpValue.other r => r

def macTableOID : String := "1.3.6.1.2.1.17.4.3.1.2"

def interfaceOIDs : GoMap String :=
  [("Cisco", "1.3.6.1.2.1.2.2.1.2"),
   ("Aruba", "1.3.6.1.2.1.2.2.1.2"),
   ("ProCurve", "1.3.6.1.2.1.31.1.1.1.1")]

/-- Vendor-specific VLAN OIDs. -/
def vlanOIDs : GoMap String :=
  [("Cisco", "1.3.6.1.4.1.9.9.68.1.2.2.1.2"),
   ("Aruba", "1.3.6.1.2.1.17.7.1.4.5.1.1"),
   ("ProCurve", "1.3.6.1.2.1.17.7.1.4.5.1.1")]

/-! ## The SNMP correlator: `getMACPortData` -/

/-- The last element of `strings.Split(name, ".")` (`oidParts[len(oidParts)-1]`). -/
def lastOidPart (name : String) : String :=
  (stringsSplitDot name).getLast?.getD ""

/-- One iteration of the loop that maps ifIndex to port name. -/
def ifIndexToPortStep (ifIndexToPort : GoMap String) (pd : SnmpPDU) : GoMap String :=
  let ifIndex := lastOidPart pd.Name
  match pd.Value with
  | SnmpValue.str v => (ifIndex, stringsTrimQuote v) :: ifIndexToPort
  | SnmpValue.bytes v => (ifIndex, stringsTrimQuote (bytesToString v)) :: ifIndexToPort
  | SnmpValue.int v => (ifIndex, fmtD v) :: ifIndexToPort
  | SnmpValue.other _ => ifIndexToPort

/-- The map `ifIndexToPort` after the loop over the interface walk. -/
def buildIfIndexToPort (ifData : List SnmpPDU) : GoMap String :=
  ifData.foldl ifIndexToPortStep []

/-- One iteration of the loop that collects the access ports. -/
def accessPortsStep (accessPorts : GoMap Bool) (pd : SnmpPDU) : GoMap Bool :=
  let ifIndex := lastOidPart pd.Name
  match pd.Value with
  | SnmpValue.int v => if v = 1 then (ifIndex, true) :: accessPorts else accessPorts
  | _ => accessPorts

/-- The map `accessPorts` after the loop over the VLAN-mode walk. -/
def buildAccessPorts (vlanModeData : List SnmpPDU) : GoMap Bool :=
  vlanModeData.foldl accessPortsStep []

/-- The MAC string computed from an OID name that has at least six parts: the
last six parts, each scanned as a decimal and printed with `%02X`, joined by
colons. -/
def macOfParts (oidParts : List String) : String :=
  let macParts := oidParts.drop (oidParts.length - 6)
  let hexMacParts := macParts.foldl
    (fun acc part => acc ++ [fmtX02 (sscanfD part)]) ([] : List String)
  stringsJoin hexMacParts ":"

/-- One iteration of the loop over the MAC table: `results` after the entry. -/
def macStep (ifIndexToPort : GoMap String) (accessPorts : GoMap Bool)
    (results : List (GoMap String)) (pd : SnmpPDU) : List (GoMap String) :=
  let oidParts := stringsSplitDot pd.Name
  if oidParts.length < 6 then results
  else
    let mac := macOfParts oidParts
    let ifIndex := fmtV pd.Value
    let port :=
      match ifIndexToPort.lookup ifIndex with
      | some p => p
      | none => "Unknown Port"
    match accessPorts.lookup ifIndex with
    | none => results
    | some _ => results ++ [[("mac", mac), ("port", port)]]

/-- Lines 318 to 386 of `getMACPortData`: the correlation of the three walk
results (MAC table, interface-name table, VLAN-mode table). -/
def correlate (macData ifData vlanModeData : List SnmpPDU) : List (GoMap String) :=
  let ifIndexToPort := buildIfIndexToPort ifData
  let accessPorts := buildAccessPorts vlanModeData
  macData.foldl (macStep ifIndexToPort accessPorts) []

/-- An SNMP session that connected: `BulkWalkAll` as a function of the subtree
OID (an error of the walk is dropped by the program, leaving what was read). -/
abbrev Session := String → List SnmpPDU

/-- The network seen by `snmp.Connect()`: for a target and a community either no
connection or a session. -/
abbrev Network := String → String → Option Session

def getMACPortData (net : Network) (ip community vendor : String) : List (GoMap String) :=
  match net ip community with
  | none => []
  | some snmp =>
    let macData := snmp macTableOID
    let ifData := snmp (goGet interfaceOIDs vendor)
    let vlanModeOID := "1.3.6.1.4.1.9.9.68.1.2.2.1.2"
    let vlanModeData := snmp vlanModeOID
    correlate macData ifData vlanModeData

/-! ## The directory client: `GetVendor`, `resolveZabbixMacro`, `getZabbixHosts` -/

/-- The settings read by `LoadSettings`. -/
structure Config where
  ZabbixToken : String
  ZabbixURL : String
  GroupID : Int
  Database : String
  Vendors : GoMap String

/-- One SNMP interface of a host in the `host.get` response. -/
structure ZabbixInterface where
  IP : String
  Community : String

/-- One host of the `host.get` response, as decoded into `hostsResp.Result`. -/
structure ZabbixHost where
  Host : String
  HostID : String
  Interfaces : List ZabbixInterface
  ParentTemplates : List String

/-- The directory behind `zabbixAPIRequest`: the decoded result of `host.get`, and
of `usermacro.get` for a host identifier as (macro, value) pairs; `Except.error`
is a failed request. -/
structure Directory where
  hostGet : Except String (List ZabbixHost)
  usermacroGet : String → Except String (List (String × String))

/-- GetVendor returns the vendor name based on the template ID. -/
def GetVendor (config : Config) (templateID : String) : String :=
  match config.Vendors.lookup templateID with
  | some vendor => vendor
  | none => "Unknown"

/-- The loop of `resolveZabbixMacro` over the macro listing. -/
def findMacro (macroName : String) : List (String × String) → Except String String
  | [] => Except.error ("❌ Macro not found: " ++ macroName)
  | (m, v) :: rest => if m = macroName then Except.ok v else findMacro macroName rest

def resolveZabbixMacro (dir : Directory) (hostID macroName : String) : Except String String :=
  match dir.usermacroGet hostID with
  | Except.error err => Except.error err
  | Except.ok result => findMacro macroName result

/-- The vendor detection loop of `getZabbixHosts` over the parent templates. -/
def detectVendor (config : Config) (templates : List String) : String :=
  templates.foldl
    (fun vendor tpl =>
      let vnd := GetVendor config tpl
      if vnd ≠ "" then vnd else vendor)
    "Unknown"

/-- The community of a host after the macro check of `getZabbixHosts`. -/
def resolveCommunity (dir : Directory) (hostID snmpCommunity : String) : String :=
  if stringsHasPrefix snmpCommunity "\x7b$" && stringsHasSuffix snmpCommunity "\x7d" then
    match resolveZabbixMacro dir hostID snmpCommunity with
    | Except.ok realCommunity => if realCommunity ≠ "" then realCommunity else snmpCommunity
    | Except.error _ => snmpCommunity
  else snmpCommunity

/-- One iteration of the host loop of `getZabbixHosts`. -/
def zabbixHostStep (config : Config) (dir : Directory) (hosts : List (GoMap String))
    (host : ZabbixHost) : List (GoMap String) :=
  match host.Interfaces with
  | [] => hosts
  | snmpInterface :: _ =>
    let ip := snmpInterface.IP
    let snmpCommunity := resolveCommunity dir host.HostID snmpInterface.Community
    let vendor := detectVendor config host.ParentTemplates
    hosts ++ [[("hostname", host.Host), ("ip", ip), ("community", snmpCommunity),
               ("vendor", vendor)]]

def getZabbixHosts (config : Config) (dir : Directory) : Except String (List (GoMap String)) :=
  match dir.hostGet with
  | Except.error err => Except.error err
  | Except.ok result => Except.ok (result.foldl (zabbixHostStep config dir) [])

/-! ## The inventory store: `updateSQLite` -/

/-- One row of the table `network_inventory`. -/
structure Row where
  switch_name : String
  switch_ip : String
  vendor : String
  mac_address : String
  port_name : String
  created_at : String
  updated_at : String
  deriving DecidableEq, Repr

/-- The table `network_inventory`; `CREATE TABLE IF NOT EXISTS` leaves an existing
table as it is and an absent one is the empty table. -/
abbrev Table := List Row

/-- The columns of `UNIQUE(switch_name, mac_address, port_name)`. -/
def Row.key (r : Row) : String × String × String :=
  (r.switch_name, r.mac_address, r.port_name)

/-- The statement `INSERT INTO network_inventory (...) VALUES (?, ?, ?, ?, ?,
CURRENT_TIMESTAMP) ON CONFLICT(switch_name, mac_address, port_name) DO UPDATE SET
updated_at = CURRENT_TIMESTAMP`, executed at time `now`; the column `created_at`
of a new row takes its default `CURRENT_TIMESTAMP`. -/
def insertOrUpdate (now : String) (db : Table) (hostname ip vendor mac port : String) : Table :=
  if db.any (fun r => r.key = (hostname, mac, port)) then
    db.map (fun r => if r.key = (hostname, mac, port) then { r with updated_at := now } else r)
  else
    db ++ [{ switch_name := hostname, switch_ip := ip, vendor := vendor, mac_address := mac,
             port_name := port, created_at := now, updated_at := now }]

/-- The store and the number of statements executed so far; statement number `t`
sees `CURRENT_TIMESTAMP = clock t`. -/
structure Store where
  db : Table
  tick : Nat
  deriving DecidableEq, Repr

/-- The loop of `updateSQLite` over `data`; the statements are taken to succeed. -/
def updateSQLite (clock : Nat → String) (st : Store) (hostname ip vendor : String)
    (data : List (GoMap String)) : Store :=
  data.foldl
    (fun s entry =>
      { db := insertOrUpdate (clock s.tick) s.db hostname ip vendor
                (goGet entry "mac") (goGet entry "port"),
        tick := s.tick + 1 })
    st

/-! ## The orchestrator: the host loop of `main` -/

/-- What the host loop has done so far: the lines appended to `fail.log`, the calls
of `getMACPortData` (ip, community, vendor), the data printed in single mode, and
the store. -/
structure World where
  faillog : List String
  polled : List (String × String × String)
  printed : List (List (GoMap String))
  store : Store
  deriving DecidableEq, Repr

/-- The empty world over a store. -/
def World.start (st : Store) : World :=
  { faillog := [], polled := [], printed := [], store := st }

/-- One iteration of the host loop of `main`, for the flags `--single` and `--host`. -/
def mainStep (net : Network) (clock : Nat → String) (single : Bool) (hst : String)
    (w : World) (host : GoMap String) : World :=
  if single && hst ≠ goGet host "hostnmame" then w
  else if goGet host "community" = "" then
    { w with faillog := w.faillog ++ ["Host: " ++ goGet host "hostname" ++
        " community is empty, its either using not compliant snmp v1/v2 or there are another problems like invalid macros\n"] }
  else if goGet host "vendor" = "Unknown" then
    { w with faillog := w.faillog ++ ["Host: " ++ goGet host "hostname" ++
        " vendor is unknown, cannot validate it, assign valid templates to the host\n"] }
  else
    let data := getMACPortData net (goGet host "ip") (goGet host "community") (goGet host "vendor")
    let w1 := { w with polled := w.polled ++
                  [(goGet host "ip", goGet host "community", goGet host "vendor")] }
    if single then { w1 with printed := w1.printed ++ [data] }
    else { w1 with store := updateSQLite clock w1.store (goGet host "hostname")
                              (goGet host "ip") (goGet host "vendor") data }

/-- The host loop of `main` over a host list. -/
def mainLoop (net : Network) (clock : Nat → String) (single : Bool) (hst : String)
    (w : World) (hosts : List (GoMap String)) : World :=
  hosts.foldl (mainStep net clock single hst) w

/-- The body of `main` after the settings are loaded: an error of `getZabbixHosts`
is dropped and leaves no host to process. -/
def main (config : Config) (dir : Directory) (net : Network) (clock : Nat → String)
    (single : Bool) (hst : String) (st : Store) : World :=
  match getZabbixHosts config dir with
  | Except.error _ => World.start st
  | Except.ok hosts => mainLoop net clock single hst (World.start st) hosts

/-! ## Scenario data -/

/-- Settings that map template `10251` to Cisco and template `10252` to Aruba. -/
def scenarioConfig : Config :=
  { ZabbixToken := "token", ZabbixURL := "http://zabbix/api_jsonrpc.php", GroupID := 5,
    Database := "inventory.db", Vendors := [("10251", "Cisco"), ("10252", "Aruba")] }

/-- A switch that answers the MAC table with one MAC on interface 5, both
interface-name tables with a name for interface 5, and the Cisco VLAN-mode table
with access mode for interface 5. -/
def ciscoSession : Session := fun oid =>
  if oid = "1.3.6.1.2.1.17.4.3.1.2" then
    [SnmpPDU.mk ".1.3.6.1.2.1.17.4.3.1.2.0.20.41.48.55.2" (SnmpValue.int 5)]
  else if oid = "1.3.6.1.2.1.2.2.1.2" then
    [SnmpPDU.mk ".1.3.6.1.2.1.2.2.1.2.5" (SnmpValue.bytes [71, 105, 48, 47, 53])]
  else if oid = "1.3.6.1.4.1.9.9.68.1.2.2.1.2" then
    [SnmpPDU.mk ".1.3.6.1.4.1.9.9.68.1.2.2.1.2.5" (SnmpValue.int 1)]
  else []

/-- An Aruba switch: the same MAC table and interface names, the value 1 for
interface 5 under the Aruba VLAN subtree, and nothing under the Cisco one. -/
def arubaSession : Session := fun oid =>
  if oid = "1.3.6.1.2.1.17.4.3.1.2" then
    [SnmpPDU.mk ".1.3.6.1.2.1.17.4.3.1.2.0.20.41.48.55.2" (SnmpValue.int 5)]
  else if oid = "1.3.6.1.2.1.2.2.1.2" then
    [SnmpPDU.mk ".1.3.6.1.2.1.2.2.1.2.5" (SnmpValue.bytes [49, 47, 49, 47, 53])]
  else if oid = "1.3.6.1.2.1.17.7.1.4.5.1.1" then
    [SnmpPDU.mk ".1.3.6.1.2.1.17.7.1.4.5.1.1.5" (SnmpValue.int 1)]
  else []

/-- A network where every target answers as `ciscoSession`. -/
def scenarioNet : Network := fun _ _ => some ciscoSession

/-- A clock whose statement number `t` reads as the decimal of `t`. -/
def scenarioClock : Nat → String := fun t => Nat.repr t

/-- A directory with the single host `sw1` (a Cisco template, the literal
community `public`) and no macros. -/
def plainDirectory : Directory :=
  { hostGet := Except.ok
      [{ Host := "sw1", HostID := "10084",
         Interfaces := [{ IP := "10.0.0.1", Community := "public" }],
         ParentTemplates := ["10251"] }],
    usermacroGet := fun _ => Except.ok [] }

/-- A directory with the single host `sw1` whose community is the macro
`\x7b$SNMP_COMMUNITY\x7d`, and whose macro listing holds only another macro. -/
def macroDirectory : Directory :=
  { hostGet := Except.ok
      [{ Host := "sw1", HostID := "10084",
         Interfaces := [{ IP := "10.0.0.1", Community := "\x7b$SNMP_COMMUNITY\x7d" }],
         ParentTemplates := ["10251"] }],
    usermacroGet := fun _ => Except.ok [("\x7b$SNMP_LOCATION\x7d", "rack 4")] }

/-- A directory with the single host `sw1` that carries the Cisco template `10251`
followed by the template `10001`, which the settings do not map. -/
def twoTemplateDirectory : Directory :=
  { hostGet := Except.ok
      [{ Host := "sw1", HostID := "10084",
         Interfaces := [{ IP := "10.0.0.1", Community := "public" }],
         ParentTemplates := ["10251", "10001"] }],
    usermacroGet := fun _ => Except.ok [] }

/-! ## Specification-side definitions -/

/-- The record `getMACPortData` appends for a MAC-table entry that is kept. -/
def macRecord (ifData : List SnmpPDU) (pd : SnmpPDU) : GoMap String :=
  [("mac", macOfParts (stringsSplitDot pd.Name)),
   ("port", match (buildIfIndexToPort ifData).lookup (fmtV pd.Value) with
            | some p => p
            | none => "Unknown Port")]

/-- The test a MAC-table entry passes to be kept: at least six parts in its name
and its interface index (the `%v` rendering of its value) among the access ports. -/
def macKept (vlanModeData : List SnmpPDU) (pd : SnmpPDU) : Bool :=
  decide (6 ≤ (stringsSplitDot pd.Name).length) &&
    ((buildAccessPorts vlanModeData).lookup (fmtV pd.Value)).isSome

/-- Uppercase hexadecimal digit characters `0`..`9`, `A`..`F`. -/
def isUpperHexChar (c : Char) : Bool :=
  (48 ≤ c.toNat && c.toNat ≤ 57) || (65 ≤ c.toNat && c.toNat ≤ 70)

/-- The form `XX:XX:XX:XX:XX:XX` with uppercase hexadecimal digits. -/
def isCanonicalMac (s : String) : Bool :=
  match s.data with
  | [a1, a2, ':', b1, b2, ':', c1, c2, ':', d1, d2, ':', e1, e2, ':', f1, f2] =>
    [a1, a2, b1, b2, c1, c2, d1, d2, e1, e2, f1, f2].all isUpperHexChar
  | _ => false

/-- Two worlds with the same SNMP calls, the same printed data and the same store
(the fail log may differ). -/
def sameWork (w w' : World) : Prop :=
  w.polled = w'.polled ∧ w.printed = w'.printed ∧ w.store = w'.store

/-- Number of rows of a table with a given key. -/
def countKey (db : Table) (k : String × String × String) : Nat :=
  (db.filter (fun r => r.key = k)).length

/-! ## Shared lemmas -/

theorem macStep_foldl (ifData vlanModeData : List SnmpPDU) (macData : List SnmpPDU)
    (acc : List (GoMap String)) :
    macData.foldl (macStep (buildIfIndexToPort ifData) (buildAccessPorts vlanModeData)) acc
      = acc ++ (macData.filter (macKept vlanModeData)).map (macRecord ifData) := by
  induction macData generalizing acc with
  | nil => simp
  | cons pd rest ih =>
    rw [List.foldl_cons, ih]
    by_cases hlen : (stringsSplitDot pd.Name).length < 6
    · have hk : macKept vlanModeData pd = false := by
        simp [macKept, hlen]
      simp [macStep, hlen, List.filter_cons, hk]
    · cases hacc : (buildAccessPorts vlanModeData).lookup (fmtV pd.Value) with
      | none =>
        have hk : macKept vlanModeData pd = false := by
          simp [macKept, hacc]
        simp [macStep, hlen, hacc, List.filter_cons, hk]
      | some b =>
        have hk : macKept vlanModeData pd = true := by
          simp [macKept, hacc]
          omega
        simp [macStep, hlen, hacc, List.filter_cons, hk, macRecord]

theorem correlate_eq_filter_map (macData ifData vlanModeData : List SnmpPDU) :
    correlate macData ifData vlanModeData
      = (macData.filter (macKept vlanModeData)).map (macRecord ifData) := by
  simp [correlate, macStep_foldl]

theorem correlate_append (xs ys ifData vlanModeData : List SnmpPDU) :
    correlate (xs ++ ys) ifData vlanModeData
      = correlate xs ifData vlanModeData ++ correlate ys ifData vlanModeData := by
  simp [correlate_eq_filter_map]

theorem accessPorts_foldl_isSome (vlanModeData : List SnmpPDU) (acc : GoMap Bool)
    (ifIndex : String) :
    ((vlanModeData.foldl accessPortsStep acc).lookup ifIndex).isSome = true ↔
      (acc.lookup ifIndex).isSome = true ∨
        ∃ pd ∈ vlanModeData, lastOidPart pd.Name = ifIndex ∧ pd.Value = SnmpValue.int 1 := by
  induction vlanModeData generalizing acc with
  | nil => simp
  | cons pd rest ih =>
    rw [List.foldl_cons, ih]
    obtain ⟨name, value⟩ := pd
    cases value with
    | int v =>
      by_cases hv : v = 1
      · subst hv
        by_cases hidx : lastOidPart name = ifIndex
        · subst hidx
          simp [accessPortsStep, List.lookup]
        · have hne : (ifIndex == lastOidPart name) = false := by
            simpa [beq_eq_false_iff_ne] using fun h => hidx h.symm
          simp [accessPortsStep, List.lookup, hne, hidx]
      · simp [accessPortsStep, hv]
    | str s => simp [accessPortsStep]
    | bytes b => simp [accessPortsStep]
    | other r => simp [accessPortsStep]

theorem accessPorts_isSome (vlanModeData : List SnmpPDU) (ifIndex : String) :
    ((buildAccessPorts vlanModeData).lookup ifIndex).isSome = true ↔
      ∃ pd ∈ vlanModeData, lastOidPart pd.Name = ifIndex ∧ pd.Value = SnmpValue.int 1 := by
  rw [buildAccessPorts, accessPorts_foldl_isSome]
  simp [List.lookup]

/-! ## The correlator: access-port filter, port-name fallback, short names -/

/-- C1: the output of the correlation is the MAC-table walk, in walk order,
restricted to the entries kept (a name of at least six parts and an interface
index among the access ports), each turned into its record; an index is among the
access ports exactly when some VLAN-mode entry ending in that index has the
integer value 1; so the MAC entries of an index that no VLAN-mode entry marks with
1 (value 2, any other value, or no entry) contribute nothing to the output. -/
theorem correlate_keeps_access_ports_in_walk_order
    (macData ifData vlanModeData : List SnmpPDU) :
    correlate macData ifData vlanModeData
        = (macData.filter (fun pd =>
            decide (6 ≤ (stringsSplitDot pd.Name).length) &&
              ((buildAccessPorts vlanModeData).lookup (fmtV pd.Value)).isSome)).map
            (macRecord ifData)
      ∧ (∀ ifIndex : String,
          ((buildAccessPorts vlanModeData).lookup ifIndex).isSome = true ↔
            ∃ pd ∈ vlanModeData, lastOidPart pd.Name = ifIndex ∧ pd.Value = SnmpValue.int 1)
      ∧ (∀ ifIndex : String,
          (∀ pd ∈ vlanModeData, lastOidPart pd.Name = ifIndex → pd.Value ≠ SnmpValue.int 1) →
            correlate (macData.filter (fun pd => fmtV pd.Value = ifIndex)) ifData vlanModeData = []
            ∧ correlate macData ifData vlanModeData
                = correlate (macData.filter (fun pd => fmtV pd.Value ≠ ifIndex))
                    ifData vlanModeData) := by
  refine ⟨?_, accessPorts_isSome vlanModeData, ?_⟩
  · rw [correlate_eq_filter_map]
    rfl
  · intro ifIndex hno
    have hnone : ((buildAccessPorts vlanModeData).lookup ifIndex).isSome = false := by
      cases h : ((buildAccessPorts vlanModeData).lookup ifIndex).isSome with
      | false => rfl
      | true =>
        obtain ⟨pd, hmem, hidx, hval⟩ := (accessPorts_isSome vlanModeData ifIndex).mp h
        exact absurd hval (hno pd hmem hidx)
    have hdrop : ∀ pd : SnmpPDU, fmtV pd.Value = ifIndex → macKept vlanModeData pd = false := by
      intro pd hpd
      simp [macKept, hpd, hnone]
    constructor
    · rw [correlate_eq_filter_map, List.filter_filter]
      have : macData.filter (fun pd => macKept vlanModeData pd && decide (fmtV pd.Value = ifIndex))
          = [] := by
        rw [List.filter_eq_nil_iff]
        intro pd _
        by_cases hpd : fmtV pd.Value = ifIndex
        · simp [hdrop pd hpd]
        · simp [hpd]
      rw [this]
      rfl
    · rw [correlate_eq_filter_map, correlate_eq_filter_map, List.filter_filter]
      congr 1
      apply List.filter_congr
      intro pd _
      by_cases hpd : fmtV pd.Value = ifIndex
      · simp [hdrop pd hpd]
      · simp [hpd]

/-- C1, at a walk with an access port (index 5), a trunk port (index 6, value 2)
and a port without VLAN-mode entry (index 7): only the entry of port 5 is emitted,
and removing the entries of port 6 changes nothing. -/
theorem correlate_keeps_access_ports_in_walk_order_witness :
    (∀ pd ∈ [SnmpPDU.mk ".1.3.6.1.4.1.9.9.68.1.2.2.1.2.5" (SnmpValue.int 1),
             SnmpPDU.mk ".1.3.6.1.4.1.9.9.68.1.2.2.1.2.6" (SnmpValue.int 2)],
        lastOidPart pd.Name = "6" → pd.Value ≠ SnmpValue.int 1)
    ∧ correlate
        ([SnmpPDU.mk ".1.3.6.1.2.1.17.4.3.1.2.0.20.41.48.55.3" (SnmpValue.int 6),
          SnmpPDU.mk ".1.3.6.1.2.1.17.4.3.1.2.0.20.41.48.55.2" (SnmpValue.int 5),
          SnmpPDU.mk ".1.3.6.1.2.1.17.4.3.1.2.0.20.41.48.55.4" (SnmpValue.int 7)].filter
            (fun pd => fmtV pd.Value = "6"))
        [SnmpPDU.mk ".1.3.6.1.2.1.2.2.1.2.5" (SnmpValue.str "Gi0/5")]
        [SnmpPDU.mk ".1.3.6.1.4.1.9.9.68.1.2.2.1.2.5" (SnmpValue.int 1),
         SnmpPDU.mk ".1.3.6.1.4.1.9.9.68.1.2.2.1.2.6" (SnmpValue.int 2)] = []
    ∧ correlate
        [SnmpPDU.mk ".1.3.6.1.2.1.17.4.3.1.2.0.20.41.48.55.3" (SnmpValue.int 6),
         SnmpPDU.mk ".1.3.6.1.2.1.17.4.3.1.2.0.20.41.48.55.2" (SnmpValue.int 5),
         SnmpPDU.mk ".1.3.6.1.2.1.17.4.3.1.2.0.20.41.48.55.4" (SnmpValue.int 7)]
        [SnmpPDU.mk ".1.3.6.1.2.1.2.2.1.2.5" (SnmpValue.str "Gi0/5")]
        [SnmpPDU.mk ".1.3.6.1.4.1.9.9.68.1.2.2.1.2.5" (SnmpValue.int 1),
         SnmpPDU.mk ".1.3.6.1.4.1.9.9.68.1.2.2.1.2.6" (SnmpValue.int 2)]
        = [[("mac", "00:14:29:30:37:02"), ("port", "Gi0/5")]] := by
  have hno : ∀ pd ∈ [SnmpPDU.mk ".1.3.6.1.4.1.9.9.68.1.2.2.1.2.5" (SnmpValue.int 1),
             SnmpPDU.mk ".1.3.6.1.4.1.9.9.68.1.2.2.1.2.6" (SnmpValue.int 2)],
        lastOidPart pd.Name = "6" → pd.Value ≠ SnmpValue.int 1 := by decide
  exact ⟨hno,
    ((correlate_keeps_access_ports_in_walk_order _ _ _).2.2 "6" hno).1,
    by decide⟩

/-- C9: a MAC-table entry that passes the filter (a name of at least six parts, an
interface index among the access ports) is emitted at its place in the walk, with
the port name the ifIndex-to-port-name map holds for its index, and with
`"Unknown Port"` when the map holds none. -/
theorem correlate_port_name_fallback
    (before after ifData vlanModeData : List SnmpPDU) (pd : SnmpPDU)
    (hparts : 6 ≤ (stringsSplitDot pd.Name).length)
    (haccess : ((buildAccessPorts vlanModeData).lookup (fmtV pd.Value)).isSome = true) :
    (∀ name : String, (buildIfIndexToPort ifData).lookup (fmtV pd.Value) = some name →
        correlate (before ++ pd :: after) ifData vlanModeData
          = correlate before ifData vlanModeData
              ++ [("mac", macOfParts (stringsSplitDot pd.Name)), ("port", name)]
                  :: correlate after ifData vlanModeData)
      ∧ ((buildIfIndexToPort ifData).lookup (fmtV pd.Value) = none →
        correlate (before ++ pd :: after) ifData vlanModeData
          = correlate before ifData vlanModeData
              ++ [("mac", macOfParts (stringsSplitDot pd.Name)), ("port", "Unknown Port")]
                  :: correlate after ifData vlanModeData) := by
  have hk : macKept vlanModeData pd = true := by
    simp [macKept, hparts, haccess]
  have hsplit : correlate (before ++ pd :: after) ifData vlanModeData
      = correlate before ifData vlanModeData
          ++ macRecord ifData pd :: correlate after ifData vlanModeData := by
    simp [correlate_eq_filter_map, List.filter_cons, hk]
  constructor
  · intro name hname
    rw [hsplit]
    simp [macRecord, hname]
  · intro hnone
    rw [hsplit]
    simp [macRecord, hnone]

/-- C9, at a walk where access port 5 has a name and access port 8 has none. -/
theorem correlate_port_name_fallback_witness :
    correlate
        ([SnmpPDU.mk ".1.3.6.1.2.1.17.4.3.1.2.0.20.41.48.55.2" (SnmpValue.int 5)]
          ++ SnmpPDU.mk ".1.3.6.1.2.1.17.4.3.1.2.0.20.41.48.55.9" (SnmpValue.int 8) :: [])
        [SnmpPDU.mk ".1.3.6.1.2.1.2.2.1.2.5" (SnmpValue.str "Gi0/5")]
        [SnmpPDU.mk ".1.3.6.1.4.1.9.9.68.1.2.2.1.2.5" (SnmpValue.int 1),
         SnmpPDU.mk ".1.3.6.1.4.1.9.9.68.1.2.2.1.2.8" (SnmpValue.int 1)]
      = correlate [SnmpPDU.mk ".1.3.6.1.2.1.17.4.3.1.2.0.20.41.48.55.2" (SnmpValue.int 5)]
          [SnmpPDU.mk ".1.3.6.1.2.1.2.2.1.2.5" (SnmpValue.str "Gi0/5")]
          [SnmpPDU.mk ".1.3.6.1.4.1.9.9.68.1.2.2.1.2.5" (SnmpValue.int 1),
           SnmpPDU.mk ".1.3.6.1.4.1.9.9.68.1.2.2.1.2.8" (SnmpValue.int 1)]
        ++ [("mac", macOfParts (stringsSplitDot ".1.3.6.1.2.1.17.4.3.1.2.0.20.41.48.55.9")),
            ("port", "Unknown Port")]
          :: correlate []
              [SnmpPDU.mk ".1.3.6.1.2.1.2.2.1.2.5" (SnmpValue.str "Gi0/5")]
              [SnmpPDU.mk ".1.3.6.1.4.1.9.9.68.1.2.2.1.2.5" (SnmpValue.int 1),
               SnmpPDU.mk ".1.3.6.1.4.1.9.9.68.1.2.2.1.2.8" (SnmpValue.int 1)] :=
  (correlate_port_name_fallback
    [SnmpPDU.mk ".1.3.6.1.2.1.17.4.3.1.2.0.20.41.48.55.2" (SnmpValue.int 5)] []
    [SnmpPDU.mk ".1.3.6.1.2.1.2.2.1.2.5" (SnmpValue.str "Gi0/5")]
    [SnmpPDU.mk ".1.3.6.1.4.1.9.9.68.1.2.2.1.2.5" (SnmpValue.int 1),
     SnmpPDU.mk ".1.3.6.1.4.1.9.9.68.1.2.2.1.2.8" (SnmpValue.int 1)]
    (SnmpPDU.mk ".1.3.6.1.2.1.17.4.3.1.2.0.20.41.48.55.9" (SnmpValue.int 8))
    (by decide) (by decide)).2 (by decide)

/-- C10, as stated, fails: the name `.1.2.3.4.5` has five numeric components and
the name `.1.3.6.1.2.1.17.4.3.1.2.9.9` has two after the MAC-table prefix, yet
each splits into at least six parts, and for each a record is emitted. -/
theorem short_mac_oid_not_skipped :
    ((stringsSplitDot ".1.2.3.4.5").filter (fun part => part ≠ "")).length = 5
    ∧ correlate [SnmpPDU.mk ".1.2.3.4.5" (SnmpValue.int 7)] []
        [SnmpPDU.mk ".1.3.6.1.4.1.9.9.68.1.2.2.1.2.7" (SnmpValue.int 1)]
        = [[("mac", "00:01:02:03:04:05"), ("port", "Unknown Port")]]
    ∧ stringsSplitDot ".1.3.6.1.2.1.17.4.3.1.2.9.9"
        = stringsSplitDot ("." ++ macTableOID) ++ ["9", "9"]
    ∧ correlate [SnmpPDU.mk ".1.3.6.1.2.1.17.4.3.1.2.9.9" (SnmpValue.int 7)] []
        [SnmpPDU.mk ".1.3.6.1.4.1.9.9.68.1.2.2.1.2.7" (SnmpValue.int 1)]
        = [[("mac", "04:03:01:02:09:09"), ("port", "Unknown Port")]] := by
  decide

/-- C10, amended: a MAC-table entry whose name splits at the dots into fewer than
six parts is skipped, and the walk gives the output it gives without that entry. -/
theorem correlate_skips_name_of_fewer_than_six_parts
    (before after ifData vlanModeData : List SnmpPDU) (pd : SnmpPDU)
    (hshort : (stringsSplitDot pd.Name).length < 6) :
    correlate [pd] ifData vlanModeData = []
      ∧ correlate (before ++ pd :: after) ifData vlanModeData
          = correlate (before ++ after) ifData vlanModeData := by
  have hk : macKept vlanModeData pd = false := by
    simp [macKept, hshort]
  constructor
  · simp [correlate_eq_filter_map, List.filter_cons, hk]
  · simp [correlate_eq_filter_map, List.filter_cons, hk]

/-- C10 amended, at the name `1.2.3.4.5` between two well-formed entries. -/
theorem correlate_skips_name_of_fewer_than_six_parts_witness :
    (stringsSplitDot "1.2.3.4.5").length < 6
    ∧ correlate
        ([SnmpPDU.mk ".1.3.6.1.2.1.17.4.3.1.2.0.20.41.48.55.2" (SnmpValue.int 5)]
          ++ SnmpPDU.mk "1.2.3.4.5" (SnmpValue.int 5)
          :: [SnmpPDU.mk ".1.3.6.1.2.1.17.4.3.1.2.0.20.41.48.55.3" (SnmpValue.int 5)])
        [] [SnmpPDU.mk ".1.3.6.1.4.1.9.9.68.1.2.2.1.2.5" (SnmpValue.int 1)]
      = correlate
        ([SnmpPDU.mk ".1.3.6.1.2.1.17.4.3.1.2.0.20.41.48.55.2" (SnmpValue.int 5)]
          ++ [SnmpPDU.mk ".1.3.6.1.2.1.17.4.3.1.2.0.20.41.48.55.3" (SnmpValue.int 5)])
        [] [SnmpPDU.mk ".1.3.6.1.4.1.9.9.68.1.2.2.1.2.5" (SnmpValue.int 1)] :=
  ⟨by decide,
   (correlate_skips_name_of_fewer_than_six_parts _ _ _ _
      (SnmpPDU.mk "1.2.3.4.5" (SnmpValue.int 5)) (by decide)).2⟩

/-! ## The MAC string of a MAC-table name -/

set_option maxRecDepth 100000 in
theorem sscanfD_repr_octet : ∀ n : Nat, n < 256 → sscanfD (Nat.repr n) = Int.ofNat n := by
  decide

set_option maxRecDepth 100000 in
theorem fmtX02_octet : ∀ n : Nat, n < 256 →
    fmtX02 (Int.ofNat n) = String.mk [hexDigitUpper (n / 16), hexDigitUpper (n % 16)] := by
  decide

theorem hexDigitUpper_injective : ∀ x : Nat, x < 16 → ∀ y : Nat, y < 16 →
    hexDigitUpper x = hexDigitUpper y → x = y := by
  decide

theorem hexDigitUpper_isUpperHex : ∀ x : Nat, x < 16 → isUpperHexChar (hexDigitUpper x) = true := by
  decide

theorem octet_of_hex_digits (a b : Nat) (ha : a < 256) (hb : b < 256)
    (hhi : hexDigitUpper (a / 16) = hexDigitUpper (b / 16))
    (hlo : hexDigitUpper (a % 16) = hexDigitUpper (b % 16)) : a = b := by
  have h1 := hexDigitUpper_injective (a / 16) (by omega) (b / 16) (by omega) hhi
  have h2 := hexDigitUpper_injective (a % 16) (by omega) (b % 16) (by omega) hlo
  omega

theorem foldl_snoc_map {α β : Type} (f : α → β) (l : List α) (acc : List β) :
    l.foldl (fun acc x => acc ++ [f x]) acc = acc ++ l.map f := by
  induction l generalizing acc with
  | nil => simp
  | cons x xs ih => simp [ih]

/-- The MAC string of a name whose last six parts are the decimal octets
`a b c d e f`. -/
theorem macOfParts_octets (front : List String) (a b c d e f : Nat)
    (ha : a < 256) (hb : b < 256) (hc : c < 256) (hd : d < 256) (he : e < 256) (hf : f < 256) :
    macOfParts (front ++ [a, b, c, d, e, f].map Nat.repr)
      = String.mk [hexDigitUpper (a / 16), hexDigitUpper (a % 16), ':',
                   hexDigitUpper (b / 16), hexDigitUpper (b % 16), ':',
                   hexDigitUpper (c / 16), hexDigitUpper (c % 16), ':',
                   hexDigitUpper (d / 16), hexDigitUpper (d % 16), ':',
                   hexDigitUpper (e / 16), hexDigitUpper (e % 16), ':',
                   hexDigitUpper (f / 16), hexDigitUpper (f % 16)] := by
  have hdrop : (front ++ [a.repr, b.repr, c.repr, d.repr, e.repr, f.repr]).drop
      ((front ++ [a.repr, b.repr, c.repr, d.repr, e.repr, f.repr]).length - 6)
      = [a.repr, b.repr, c.repr, d.repr, e.repr, f.repr] := by
    have hl : (front ++ [a.repr, b.repr, c.repr, d.repr, e.repr, f.repr]).length - 6
        = front.length := by
      simp
    rw [hl, List.drop_left]
  unfold macOfParts
  simp only [List.map_cons, List.map_nil, hdrop, foldl_snoc_map, List.nil_append]
  rw [sscanfD_repr_octet a ha, sscanfD_repr_octet b hb, sscanfD_repr_octet c hc,
    sscanfD_repr_octet d hd, sscanfD_repr_octet e he, sscanfD_repr_octet f hf,
    fmtX02_octet a ha, fmtX02_octet b hb, fmtX02_octet c hc,
    fmtX02_octet d hd, fmtX02_octet e he, fmtX02_octet f hf]
  apply String.ext
  simp [stringsJoin, String.intercalate, String.intercalate.go]

theorem six_octets (o : List Nat) (hlen : o.length = 6) :
    ∃ a b c d e f : Nat, o = [a, b, c, d, e, f] := by
  match o, hlen with
  | [a, b, c, d, e, f], _ => exact ⟨a, b, c, d, e, f, rfl⟩

/-- C2: for a MAC-table name whose last six parts are decimal octets (0..255), the
MAC string computed has the form `XX:XX:XX:XX:XX:XX` in uppercase hexadecimal, it
is the `mac` of every record emitted for an entry of that name, and two such names
with the same MAC string have the same six octets; the last six parts
`0.20.41.48.55.2` give `00:14:29:30:37:02`. -/
theorem mac_of_octets_canonical_and_injective
    (front front' : List String) (o o' : List Nat) (name name' : String)
    (hlen : o.length = 6) (hlen' : o'.length = 6)
    (hoct : ∀ x ∈ o, x < 256) (hoct' : ∀ x ∈ o', x < 256)
    (hname : stringsSplitDot name = front ++ o.map Nat.repr)
    (hname' : stringsSplitDot name' = front' ++ o'.map Nat.repr) :
    isCanonicalMac (macOfParts (stringsSplitDot name)) = true
      ∧ (∀ (value : SnmpValue) (ifData vlanModeData : List SnmpPDU),
          ∀ r ∈ correlate [SnmpPDU.mk name value] ifData vlanModeData,
            goGet r "mac" = macOfParts (stringsSplitDot name))
      ∧ (macOfParts (stringsSplitDot name) = macOfParts (stringsSplitDot name') → o = o')
      ∧ macOfParts (stringsSplitDot ".1.3.6.1.2.1.17.4.3.1.2.0.20.41.48.55.2")
          = "00:14:29:30:37:02" := by
  obtain ⟨a, b, c, d, e, f, rfl⟩ := six_octets o hlen
  obtain ⟨a', b', c', d', e', f', rfl⟩ := six_octets o' hlen'
  have ha := hoct a (by simp)
  have hb := hoct b (by simp)
  have hc := hoct c (by simp)
  have hd := hoct d (by simp)
  have he := hoct e (by simp)
  have hf := hoct f (by simp)
  have ha' := hoct' a' (by simp)
  have hb' := hoct' b' (by simp)
  have hc' := hoct' c' (by simp)
  have hd' := hoct' d' (by simp)
  have he' := hoct' e' (by simp)
  have hf' := hoct' f' (by simp)
  rw [hname, hname', macOfParts_octets front a b c d e f ha hb hc hd he hf,
    macOfParts_octets front' a' b' c' d' e' f' ha' hb' hc' hd' he' hf']
  refine ⟨?_, ?_, ?_, by decide⟩
  · simp [isCanonicalMac, hexDigitUpper_isUpperHex, Nat.div_lt_of_lt_mul, Nat.mod_lt, ha, hb,
      hc, hd, he, hf]
  · intro value ifData vlanModeData r hr
    rw [correlate_eq_filter_map] at hr
    obtain ⟨pd, hpd, rfl⟩ := List.mem_map.mp hr
    have hpd' : pd = SnmpPDU.mk name value := by
      have := List.mem_of_mem_filter hpd
      simpa using this
    subst hpd'
    have hmac := macOfParts_octets front a b c d e f ha hb hc hd he hf
    simp only [List.map_cons, List.map_nil] at hmac
    simp [macRecord, goGet, List.lookup, hname, hmac]
  · intro heq
    have hdata := congrArg String.data heq
    simp only [List.cons.injEq, and_true, true_and] at hdata
    obtain ⟨h1, h2, h3, h4, h5, h6, h7, h8, h9, h10, h11, h12⟩ := hdata
    rw [octet_of_hex_digits a a' ha ha' h1 h2, octet_of_hex_digits b b' hb hb' h3 h4,
      octet_of_hex_digits c c' hc hc' h5 h6, octet_of_hex_digits d d' hd hd' h7 h8,
      octet_of_hex_digits e e' he he' h9 h10, octet_of_hex_digits f f' hf hf' h11 h12]

/-- C2, at the names `.1.3.6.1.2.1.17.4.3.1.2.0.20.41.48.55.2` and
`.1.3.6.1.2.1.17.4.3.1.2.0.20.41.48.55.3`. -/
theorem mac_of_octets_canonical_and_injective_witness :
    isCanonicalMac (macOfParts (stringsSplitDot ".1.3.6.1.2.1.17.4.3.1.2.0.20.41.48.55.2")) = true
      ∧ (macOfParts (stringsSplitDot ".1.3.6.1.2.1.17.4.3.1.2.0.20.41.48.55.2")
          = macOfParts (stringsSplitDot ".1.3.6.1.2.1.17.4.3.1.2.0.20.41.48.55.3")
          → [0, 20, 41, 48, 55, 2] = [0, 20, 41, 48, 55, 3]) :=
  have h := mac_of_octets_canonical_and_injective
    ["", "1", "3", "6", "1", "2", "1", "17", "4", "3", "1", "2"]
    ["", "1", "3", "6", "1", "2", "1", "17", "4", "3", "1", "2"]
    [0, 20, 41, 48, 55, 2] [0, 20, 41, 48, 55, 3]
    ".1.3.6.1.2.1.17.4.3.1.2.0.20.41.48.55.2" ".1.3.6.1.2.1.17.4.3.1.2.0.20.41.48.55.3"
    (by decide) (by decide) (by decide) (by decide) (by decide) (by decide)
  ⟨h.1, h.2.2.1⟩

/-! ## Vendor registry, vendor detection, macro resolution, single-host mode -/

/-- C3: for every vendor the VLAN-mode walk of `getMACPortData` is the one under
the Cisco subtree `1.3.6.1.4.1.9.9.68.1.2.2.1.2`, not under `vlanOIDs[vendor]`: on
an Aruba switch that marks interface 5 under its registry subtree
`1.3.6.1.2.1.17.7.1.4.5.1.1` the output is empty, where the correlation of the
walks the registry names gives the record of interface 5. -/
theorem getMACPortData_walks_cisco_vlan_subtree :
    (∀ (snmp : Session) (ip community vendor : String),
        getMACPortData (fun _ _ => some snmp) ip community vendor
          = correlate (snmp macTableOID) (snmp (goGet interfaceOIDs vendor))
              (snmp "1.3.6.1.4.1.9.9.68.1.2.2.1.2"))
    ∧ goGet vlanOIDs "Aruba" = "1.3.6.1.2.1.17.7.1.4.5.1.1"
    ∧ goGet vlanOIDs "ProCurve" = "1.3.6.1.2.1.17.7.1.4.5.1.1"
    ∧ getMACPortData (fun _ _ => some arubaSession) "10.0.0.2" "public" "Aruba" = []
    ∧ correlate (arubaSession macTableOID) (arubaSession (goGet interfaceOIDs "Aruba"))
        (arubaSession (goGet vlanOIDs "Aruba"))
        = [[("mac", "00:14:29:30:37:02"), ("port", "1/1/5")]] := by
  refine ⟨fun _ _ _ _ => rfl, by decide, by decide, by decide, by decide⟩

/-- C4: a host whose templates are `10251` (mapped to Cisco) followed by `10001`
(not mapped) gets the vendor `"Unknown"`: `GetVendor` returns `"Unknown"`, not
`""`, for the unmapped template, and the loop stores it. -/
theorem recognized_then_unrecognized_template_is_unknown :
    GetVendor scenarioConfig "10251" = "Cisco"
    ∧ scenarioConfig.Vendors.lookup "10001" = none
    ∧ GetVendor scenarioConfig "10001" = "Unknown"
    ∧ detectVendor scenarioConfig ["10251", "10001"] = "Unknown"
    ∧ (getZabbixHosts scenarioConfig twoTemplateDirectory).toOption
        = some [[("hostname", "sw1"), ("ip", "10.0.0.1"), ("community", "public"),
                 ("vendor", "Unknown")]] := by
  decide

/-- C5: for the host `sw1` with the community `\x7b$SNMP_COMMUNITY\x7d` and a
macro listing without that macro, the resolution fails, the host keeps the
placeholder as its community, and the host loop calls `getMACPortData` with the
placeholder as community; nothing is written to the fail log. -/
theorem unresolved_macro_host_is_polled :
    (stringsHasPrefix "\x7b$SNMP_COMMUNITY\x7d" "\x7b$"
        && stringsHasSuffix "\x7b$SNMP_COMMUNITY\x7d" "\x7d") = true
    ∧ (resolveZabbixMacro macroDirectory "10084" "\x7b$SNMP_COMMUNITY\x7d").toOption = none
    ∧ (getZabbixHosts scenarioConfig macroDirectory).toOption
        = some [[("hostname", "sw1"), ("ip", "10.0.0.1"),
                 ("community", "\x7b$SNMP_COMMUNITY\x7d"), ("vendor", "Cisco")]]
    ∧ (main scenarioConfig macroDirectory scenarioNet scenarioClock false ""
          { db := [], tick := 0 }).polled
        = [("10.0.0.1", "\x7b$SNMP_COMMUNITY\x7d", "Cisco")]
    ∧ (main scenarioConfig macroDirectory scenarioNet scenarioClock false ""
          { db := [], tick := 0 }).faillog = [] := by
  decide

/-- C6: with `--single --host sw1` and the directory list holding the usable host
`sw1`, the host loop skips `sw1` (the loop compares the flag with the key
`hostnmame`, which no host map has, so with `""`); with `--single` and an empty
`--host`, which names no host, `sw1` is polled. -/
theorem single_mode_skips_the_named_host :
    (getZabbixHosts scenarioConfig plainDirectory).toOption
        = some [[("hostname", "sw1"), ("ip", "10.0.0.1"), ("community", "public"),
                 ("vendor", "Cisco")]]
    ∧ main scenarioConfig plainDirectory scenarioNet scenarioClock true "sw1"
          { db := [], tick := 0 }
        = World.start { db := [], tick := 0 }
    ∧ (main scenarioConfig plainDirectory scenarioNet scenarioClock true ""
          { db := [], tick := 0 }).polled = [("10.0.0.1", "public", "Cisco")]
    ∧ (main scenarioConfig plainDirectory scenarioNet scenarioClock true ""
          { db := [], tick := 0 }).printed
        = [[[("mac", "00:14:29:30:37:02"), ("port", "Gi0/5")]]] := by
  decide

/-! ## The host loop: which hosts are polled -/

theorem mainLoop_append (net : Network) (clock : Nat → String) (single : Bool) (hst : String)
    (w : World) (xs ys : List (GoMap String)) :
    mainLoop net clock single hst w (xs ++ ys)
      = mainLoop net clock single hst (mainLoop net clock single hst w xs) ys := by
  simp [mainLoop, List.foldl_append]

theorem mainStep_unusable (net : Network) (clock : Nat → String) (single : Bool) (hst : String)
    (w : World) (host : GoMap String)
    (h : goGet host "community" = "" ∨ goGet host "vendor" = "Unknown") :
    sameWork (mainStep net clock single hst w host) w := by
  unfold mainStep sameWork
  split_ifs <;> simp_all

theorem mainStep_sameWork (net : Network) (clock : Nat → String) (single : Bool) (hst : String)
    (w w' : World) (host : GoMap String) (h : sameWork w w') :
    sameWork (mainStep net clock single hst w host) (mainStep net clock single hst w' host) := by
  obtain ⟨hp, hpr, hs⟩ := h
  unfold mainStep sameWork
  split_ifs <;> simp_all

theorem mainLoop_sameWork (net : Network) (clock : Nat → String) (single : Bool) (hst : String)
    (hosts : List (GoMap String)) (w w' : World) (h : sameWork w w') :
    sameWork (mainLoop net clock single hst w hosts) (mainLoop net clock single hst w' hosts) := by
  induction hosts generalizing w w' with
  | nil => exact h
  | cons host rest ih =>
    exact ih _ _ (mainStep_sameWork net clock single hst w w' host h)

theorem mainStep_polled (net : Network) (clock : Nat → String) (single : Bool) (hst : String)
    (w : World) (host : GoMap String) :
    (mainStep net clock single hst w host).polled = w.polled
      ∨ ((mainStep net clock single hst w host).polled
            = w.polled ++ [(goGet host "ip", goGet host "community", goGet host "vendor")]
          ∧ goGet host "community" ≠ "" ∧ goGet host "vendor" ≠ "Unknown") := by
  unfold mainStep
  split_ifs <;> simp_all

theorem mainLoop_polled (net : Network) (clock : Nat → String) (single : Bool) (hst : String)
    (hosts : List (GoMap String)) (w : World) :
    ∀ call ∈ (mainLoop net clock single hst w hosts).polled,
      call ∈ w.polled ∨ ∃ host ∈ hosts, goGet host "community" ≠ "" ∧
        goGet host "vendor" ≠ "Unknown" ∧
        call = (goGet host "ip", goGet host "community", goGet host "vendor") := by
  induction hosts generalizing w with
  | nil => intro call hc; exact Or.inl hc
  | cons host rest ih =>
    intro call hc
    have hc' : call ∈ (mainLoop net clock single hst
        (mainStep net clock single hst w host) rest).polled := hc
    rcases ih _ call hc' with hin | ⟨h', hmem, hcomm, hvend, hcall⟩
    · rcases mainStep_polled net clock single hst w host with hsame | ⟨hadd, hcomm, hvend⟩
      · rw [hsame] at hin
        exact Or.inl hin
      · rw [hadd] at hin
        rcases List.mem_append.mp hin with hold | hnew
        · exact Or.inl hold
        · right
          refine ⟨host, List.mem_cons_self _ _, hcomm, hvend, ?_⟩
          simpa using hnew
    · right
      exact ⟨h', List.mem_cons_of_mem _ hmem, hcomm, hvend, hcall⟩

/-- C7: every call of `getMACPortData` made by the host loop is for a host of the
list whose community is not empty and whose vendor is not `"Unknown"`; and a host
with an empty community or the vendor `"Unknown"` adds nothing: the calls, the
printed data and the store after the loop are those of the loop over the list
without that host. -/
theorem main_polls_only_usable_hosts (net : Network) (clock : Nat → String) (single : Bool)
    (hst : String) (st : Store) (hosts : List (GoMap String)) :
    (∀ call ∈ (mainLoop net clock single hst (World.start st) hosts).polled,
        ∃ host ∈ hosts, goGet host "community" ≠ "" ∧ goGet host "vendor" ≠ "Unknown" ∧
          call = (goGet host "ip", goGet host "community", goGet host "vendor"))
    ∧ (∀ (before after : List (GoMap String)) (host : GoMap String),
        hosts = before ++ host :: after →
        goGet host "community" = "" ∨ goGet host "vendor" = "Unknown" →
          (mainLoop net clock single hst (World.start st) hosts).polled
              = (mainLoop net clock single hst (World.start st) (before ++ after)).polled
          ∧ (mainLoop net clock single hst (World.start st) hosts).printed
              = (mainLoop net clock single hst (World.start st) (before ++ after)).printed
          ∧ (mainLoop net clock single hst (World.start st) hosts).store
              = (mainLoop net clock single hst (World.start st) (before ++ after)).store) := by
  constructor
  · intro call hc
    rcases mainLoop_polled net clock single hst hosts (World.start st) call hc with h | h
    · simp [World.start] at h
    · exact h
  · intro before after host hhosts hbad
    subst hhosts
    rw [mainLoop_append, mainLoop_append]
    exact mainLoop_sameWork net clock single hst after _ _
      (mainStep_unusable net clock single hst _ host hbad)

/-- C7, at a list of a host with an empty community followed by a usable host. -/
theorem main_polls_only_usable_hosts_witness :
    (goGet [("hostname", "sw0"), ("ip", "10.0.0.9"), ("community", ""), ("vendor", "Cisco")]
        "community" = ""
      ∨ goGet [("hostname", "sw0"), ("ip", "10.0.0.9"), ("community", ""), ("vendor", "Cisco")]
        "vendor" = "Unknown")
    ∧ (mainLoop scenarioNet scenarioClock false "" (World.start { db := [], tick := 0 })
        [[("hostname", "sw0"), ("ip", "10.0.0.9"), ("community", ""), ("vendor", "Cisco")],
         [("hostname", "sw1"), ("ip", "10.0.0.1"), ("community", "public"),
          ("vendor", "Cisco")]]).store
      = (mainLoop scenarioNet scenarioClock false "" (World.start { db := [], tick := 0 })
        ([] ++ [[("hostname", "sw1"), ("ip", "10.0.0.1"), ("community", "public"),
          ("vendor", "Cisco")]])).store :=
  ⟨Or.inl (by decide),
   ((main_polls_only_usable_hosts scenarioNet scenarioClock false "" { db := [], tick := 0 }
      [[("hostname", "sw0"), ("ip", "10.0.0.9"), ("community", ""), ("vendor", "Cisco")],
       [("hostname", "sw1"), ("ip", "10.0.0.1"), ("community", "public"),
        ("vendor", "Cisco")]]).2
      [] [[("hostname", "sw1"), ("ip", "10.0.0.1"), ("community", "public"), ("vendor", "Cisco")]]
      [("hostname", "sw0"), ("ip", "10.0.0.9"), ("community", ""), ("vendor", "Cisco")]
      rfl (Or.inl (by decide))).2.2⟩

/-! ## The store: a second observation of a known entry -/

theorem touch_keys (db : Table) (k : String × String × String) (now : String) :
    (db.map (fun r => if r.key = k then { r with updated_at := now } else r)).map Row.key
      = db.map Row.key := by
  rw [List.map_map]
  apply List.map_congr_left
  intro r _
  show Row.key (if r.key = k then { r with updated_at := now } else r) = Row.key r
  split <;> rfl

theorem insertOrUpdate_present (now : String) (db : Table) (hostname ip vendor mac port : String)
    (h : db.any (fun r => r.key = (hostname, mac, port)) = true) :
    insertOrUpdate now db hostname ip vendor mac port
      = db.map (fun r => if r.key = (hostname, mac, port)
                         then { r with updated_at := now } else r) := by
  simp only [insertOrUpdate, h, if_true]

theorem insertOrUpdate_absent (now : String) (db : Table) (hostname ip vendor mac port : String)
    (h : db.any (fun r => r.key = (hostname, mac, port)) = false) :
    insertOrUpdate now db hostname ip vendor mac port
      = db ++ [{ switch_name := hostname, switch_ip := ip, vendor := vendor, mac_address := mac,
                 port_name := port, created_at := now, updated_at := now }] := by
  simp only [insertOrUpdate, h]
  rfl

theorem insertOrUpdate_any (now : String) (db : Table) (hostname ip vendor mac port : String) :
    (insertOrUpdate now db hostname ip vendor mac port).any
      (fun r => r.key = (hostname, mac, port)) = true := by
  by_cases h : db.any (fun r => r.key = (hostname, mac, port)) = true
  · rw [insertOrUpdate_present now db hostname ip vendor mac port h]
    rw [List.any_eq_true] at h ⊢
    obtain ⟨r, hr, hk⟩ := h
    refine ⟨{ r with updated_at := now }, ?_, ?_⟩
    · apply List.mem_map.mpr
      refine ⟨r, hr, ?_⟩
      have hk' : r.key = (hostname, mac, port) := by simpa using hk
      simp [hk']
    · simpa [Row.key] using hk
  · rw [insertOrUpdate_absent now db hostname ip vendor mac port (by simpa using h)]
    simp [Row.key]

theorem insertOrUpdate_nodup (now : String) (db : Table) (hostname ip vendor mac port : String)
    (hnd : (db.map Row.key).Nodup) :
    ((insertOrUpdate now db hostname ip vendor mac port).map Row.key).Nodup := by
  by_cases h : db.any (fun r => r.key = (hostname, mac, port)) = true
  · rw [insertOrUpdate_present now db hostname ip vendor mac port h, touch_keys]
    exact hnd
  · rw [insertOrUpdate_absent now db hostname ip vendor mac port (by simpa using h)]
    rw [List.map_append, List.nodup_append]
    refine ⟨hnd, by simp, ?_⟩
    intro k hk hk'
    simp only [List.map_cons, List.map_nil, List.mem_singleton] at hk'
    subst hk'
    apply h
    rw [List.any_eq_true]
    obtain ⟨r, hr, hrk⟩ := List.mem_map.mp hk
    exact ⟨r, hr, by simpa [Row.key] using hrk⟩

theorem countKey_touch (db : Table) (k k' : String × String × String) (now : String) :
    countKey (db.map (fun r => if r.key = k then { r with updated_at := now } else r)) k'
      = countKey db k' := by
  unfold countKey
  rw [List.filter_map, List.length_map]
  congr 1
  apply List.filter_congr
  intro r _
  have hkey : Row.key (if r.key = k then { r with updated_at := now } else r) = Row.key r := by
    split <;> rfl
  simp only [Function.comp, hkey]

theorem countKey_zero_of_absent (db : Table) (k : String × String × String)
    (h : k ∉ db.map Row.key) : countKey db k = 0 := by
  unfold countKey
  rw [List.length_eq_zero, List.filter_eq_nil_iff]
  intro r hr hk
  exact h (List.mem_map.mpr ⟨r, hr, by simpa using hk⟩)

theorem countKey_one_of_present (db : Table) (k : String × String × String)
    (hnd : (db.map Row.key).Nodup) (h : db.any (fun r => r.key = k) = true) :
    countKey db k = 1 := by
  induction db with
  | nil => simp at h
  | cons r rest ih =>
    rw [List.map_cons, List.nodup_cons] at hnd
    by_cases hk : r.key = k
    · have hz := countKey_zero_of_absent rest k (hk ▸ hnd.1)
      unfold countKey at hz ⊢
      simp [List.filter_cons, hk, hz]
    · have hrest : rest.any (fun r => r.key = k) = true := by
        simpa [hk] using h
      have := ih hnd.2 hrest
      unfold countKey at this ⊢
      simp [List.filter_cons, hk, this]

/-- C8: on a table without duplicate keys, after `updateSQLite` has applied an
entry for a switch and then applies the same entry again (also with another ip and
vendor), the table is the one after the first call with `updated_at` of the rows of
that key set to the time of the second statement and every other column and row
as before; there is exactly one row of that key after each call, the number of
rows is the same, and the keys stay distinct. When the key was new, that row
holds the ip, the vendor and the creation time of the first call. -/
theorem updateSQLite_second_observation (clock : Nat → String) (st : Store)
    (hostname ip vendor ip' vendor' : String) (entry : GoMap String)
    (hunique : (st.db.map Row.key).Nodup) :
    (updateSQLite clock (updateSQLite clock st hostname ip vendor [entry])
        hostname ip' vendor' [entry]).db
      = (updateSQLite clock st hostname ip vendor [entry]).db.map
          (fun r =>
            if r.key = (hostname, goGet entry "mac", goGet entry "port") then
              { r with updated_at := clock (updateSQLite clock st hostname ip vendor [entry]).tick }
            else r)
    ∧ countKey (updateSQLite clock st hostname ip vendor [entry]).db
        (hostname, goGet entry "mac", goGet entry "port") = 1
    ∧ countKey (updateSQLite clock (updateSQLite clock st hostname ip vendor [entry])
        hostname ip' vendor' [entry]).db
        (hostname, goGet entry "mac", goGet entry "port") = 1
    ∧ (updateSQLite clock (updateSQLite clock st hostname ip vendor [entry])
        hostname ip' vendor' [entry]).db.length
        = (updateSQLite clock st hostname ip vendor [entry]).db.length
    ∧ ((updateSQLite clock (updateSQLite clock st hostname ip vendor [entry])
        hostname ip' vendor' [entry]).db.map Row.key).Nodup
    ∧ (st.db.any (fun r => r.key = (hostname, goGet entry "mac", goGet entry "port")) = false →
        (updateSQLite clock (updateSQLite clock st hostname ip vendor [entry])
          hostname ip' vendor' [entry]).db
          = st.db ++ [{ switch_name := hostname, switch_ip := ip, vendor := vendor,
                        mac_address := goGet entry "mac", port_name := goGet entry "port",
                        created_at := clock st.tick, updated_at := clock (st.tick + 1) }]) := by
  have h1 : updateSQLite clock st hostname ip vendor [entry]
      = { db := insertOrUpdate (clock st.tick) st.db hostname ip vendor
                  (goGet entry "mac") (goGet entry "port"),
          tick := st.tick + 1 } := rfl
  have h2 : ∀ s : Store, (updateSQLite clock s hostname ip' vendor' [entry]).db
      = insertOrUpdate (clock s.tick) s.db hostname ip' vendor'
          (goGet entry "mac") (goGet entry "port") := fun _ => rfl
  have hany := insertOrUpdate_any (clock st.tick) st.db hostname ip vendor
    (goGet entry "mac") (goGet entry "port")
  have hnd1 := insertOrUpdate_nodup (clock st.tick) st.db hostname ip vendor
    (goGet entry "mac") (goGet entry "port") hunique
  have hstep : (updateSQLite clock (updateSQLite clock st hostname ip vendor [entry])
        hostname ip' vendor' [entry]).db
      = (updateSQLite clock st hostname ip vendor [entry]).db.map
          (fun r =>
            if r.key = (hostname, goGet entry "mac", goGet entry "port") then
              { r with updated_at := clock (updateSQLite clock st hostname ip vendor [entry]).tick }
            else r) := by
    rw [h2, h1]
    exact insertOrUpdate_present _ _ _ _ _ _ _ hany
  have hcount1 : countKey (updateSQLite clock st hostname ip vendor [entry]).db
      (hostname, goGet entry "mac", goGet entry "port") = 1 := by
    rw [h1]
    exact countKey_one_of_present _ _ hnd1 hany
  refine ⟨hstep, hcount1, ?_, ?_, ?_, ?_⟩
  · rw [hstep, countKey_touch]
    exact hcount1
  · rw [hstep, List.length_map]
  · rw [hstep, touch_keys, h1]
    exact hnd1
  · intro hnew
    rw [hstep, h1]
    simp only []
    rw [insertOrUpdate_absent _ _ _ _ _ _ _ hnew, List.map_append]
    have hold : st.db.map (fun r => if r.key = (hostname, goGet entry "mac", goGet entry "port")
                    then { r with updated_at := clock (st.tick + 1) } else r) = st.db := by
      conv_rhs => rw [← List.map_id st.db]
      apply List.map_congr_left
      intro r hr
      have hne : ¬ r.key = (hostname, goGet entry "mac", goGet entry "port") := by
        intro hk
        have : st.db.any (fun r => r.key = (hostname, goGet entry "mac", goGet entry "port"))
            = true := List.any_eq_true.mpr ⟨r, hr, by simpa using hk⟩
        rw [hnew] at this
        exact Bool.false_ne_true this
      simp [hne]
    rw [hold]
    simp [Row.key]

/-- C8, on the empty table: the entry of `sw1` applied with ip `10.0.0.1` and
vendor Cisco, then with ip `10.0.0.2` and vendor Aruba. -/
theorem updateSQLite_second_observation_witness :
    (([] : Table).map Row.key).Nodup
    ∧ (updateSQLite scenarioClock
        (updateSQLite scenarioClock { db := [], tick := 0 } "sw1" "10.0.0.1" "Cisco"
          [[("mac", "00:14:29:30:37:02"), ("port", "Gi0/5")]])
        "sw1" "10.0.0.2" "Aruba" [[("mac", "00:14:29:30:37:02"), ("port", "Gi0/5")]]).db
      = ([] : Table) ++
          [{ switch_name := "sw1", switch_ip := "10.0.0.1", vendor := "Cisco",
             mac_address := goGet [("mac", "00:14:29:30:37:02"), ("port", "Gi0/5")] "mac",
             port_name := goGet [("mac", "00:14:29:30:37:02"), ("port", "Gi0/5")] "port",
             created_at := scenarioClock 0, updated_at := scenarioClock (0 + 1) }] :=
  ⟨List.nodup_nil,
   (updateSQLite_second_observation scenarioClock { db := [], tick := 0 }
      "sw1" "10.0.0.1" "Cisco" "10.0.0.2" "Aruba"
      [("mac", "00:14:29:30:37:02"), ("port", "Gi0/5")] List.nodup_nil).2.2.2.2.2 rfl⟩

end MacPathFinder
